import Mathlib

/-!
Verification of the rokit tool-identifier subsystem and domain-error
taxonomy, shallowly embedded from `src/lib/tool/id.rs` and
`src/lib/result.rs`.
-/

namespace Rokit

/-- Modelled from the spec: the Provider Tag is a small closed enumeration
of known artifact-hosting backends (`src/lib/sources` is outside the given
slice); GitHub is the default value. -/
inductive ArtifactProvider where
  | gitHub
deriving DecidableEq

/-- Modelled from the spec: the Provider Tag's default value is GitHub. -/
def ArtifactProvider.deflt : ArtifactProvider := .gitHub

/-- Modelled from the spec: the Provider Tag string parser; recognizes the
known backend tag and fails on an empty or unrecognized tag, with the raw
tag text as the error payload. -/
def ArtifactProvider.fromStr (s : String) : Except String ArtifactProvider :=
  if s = "github" then .ok .gitHub else .error s

/-- Error type for `ToolId` parsing, from `ToolIdParseError` in
`src/lib/tool/id.rs`. -/
inductive ToolIdParseError where
  | empty
  | missingSeparator
  | invalidProvider (tag : String)
  | invalidAuthor (author : String)
  | invalidName (nm : String)
deriving DecidableEq

/-- Modelled from the spec: the Validity Predicate
(`src/lib/tool/util.rs` is outside the given slice) rejects an empty
segment and a segment containing the path-separator character. -/
def is_invalid_identifier (s : String) : Bool :=
  s.data.isEmpty || s.data.contains '/'

/-- `ToolId` from `src/lib/tool/id.rs`: provider plus cased and uncased
author/name fields. -/
structure ToolId where
  provider : ArtifactProvider
  uncased_author : String
  uncased_name : String
  cased_author : String
  cased_name : String
deriving DecidableEq

/-- Accessor `ToolId::author`: returns the cased author. -/
def ToolId.author (t : ToolId) : String := t.cased_author

/-- Accessor `ToolId::name`: returns the cased name. -/
def ToolId.name (t : ToolId) : String := t.cased_name

/-- `impl PartialEq for ToolId`: compares the two uncased fields only. -/
def ToolId.beq (a b : ToolId) : Bool :=
  a.uncased_author == b.uncased_author && a.uncased_name == b.uncased_name

/-- `impl Hash for ToolId`: the exact data fed to the hasher — the two
uncased fields, in order. Any hasher receiving equal input produces equal
hashes. -/
def ToolId.hashInput (t : ToolId) : List String :=
  [t.uncased_author, t.uncased_name]

/-- Byte-order comparison of characters, as Rust compares `String`s
(UTF-8 byte order agrees with code-point order). -/
def charCmp (a b : Char) : Ordering :=
  if a.toNat < b.toNat then .lt else if a.toNat = b.toNat then .eq else .gt

/-- Lexicographic comparison of character lists. -/
def listCmp : List Char → List Char → Ordering
  | [], [] => .eq
  | [], _ :: _ => .lt
  | _ :: _, [] => .gt
  | a :: as, b :: bs => (charCmp a b).then (listCmp as bs)

/-- Lexicographic comparison of strings, as Rust `Ord` on `String`. -/
def strCmp (a b : String) : Ordering := listCmp a.data b.data

/-- `impl Ord for ToolId`: compare uncased authors, then uncased names. -/
def ToolId.cmp (a b : ToolId) : Ordering :=
  (strCmp a.uncased_author b.uncased_author).then
    (strCmp a.uncased_name b.uncased_name)

/-- Rust `char::to_ascii_lowercase`: maps ASCII `A`-`Z` down by 32 and
leaves every other character unchanged. -/
def asciiLowerChar (c : Char) : Char :=
  if 'A' ≤ c ∧ c ≤ 'Z' then Char.ofNat (c.toNat + 32) else c

/-- Rust `str::to_ascii_lowercase`. -/
def asciiLower (s : String) : String := ⟨s.data.map asciiLowerChar⟩

/-- Rust `str::split_once(c)`: split at the first occurrence of `c`,
`none` when `c` does not occur. -/
def splitOnce (c : Char) : List Char → Option (List Char × List Char)
  | [] => none
  | x :: xs =>
    if x = c then some ([], xs)
    else (splitOnce c xs).map (fun p => (x :: p.1, p.2))

/-- Rust `char::is_whitespace`: the Unicode White_Space property — the
code points U+0009–U+000D, U+0020, U+0085, U+00A0, U+1680,
U+2000–U+200A, U+2028, U+2029, U+202F, U+205F and U+3000. -/
def isRustWhitespace (c : Char) : Bool :=
  (0x9 ≤ c.toNat && c.toNat ≤ 0xD) || c.toNat = 0x20 || c.toNat = 0x85 ||
    c.toNat = 0xA0 || c.toNat = 0x1680 ||
    (0x2000 ≤ c.toNat && c.toNat ≤ 0x200A) || c.toNat = 0x2028 ||
    c.toNat = 0x2029 || c.toNat = 0x202F || c.toNat = 0x205F ||
    c.toNat = 0x3000

/-- Rust `str::trim`: drop leading and trailing Unicode whitespace. -/
def trimList (l : List Char) : List Char :=
  ((l.dropWhile isRustWhitespace).reverse.dropWhile isRustWhitespace).reverse

/-- String-level trim. -/
def trimStr (s : String) : String := ⟨trimList s.data⟩

/-- The part of `FromStr for ToolId` after the provider has been settled:
split the rest at the first `/`, trim both parts, validate them, and
build the `ToolId`. -/
def ToolId.fromStrRest (p : ArtifactProvider) (rest : List Char) :
    Except ToolIdParseError ToolId :=
  match splitOnce '/' rest with
  | none => .error .missingSeparator
  | some (bef, aft) =>
    if is_invalid_identifier ⟨trimList bef⟩ then
      .error (.invalidAuthor ⟨trimList bef⟩)
    else if is_invalid_identifier ⟨trimList aft⟩ then
      .error (.invalidName ⟨trimList aft⟩)
    else
      .ok ⟨p, asciiLower ⟨trimList bef⟩, asciiLower ⟨trimList aft⟩,
        ⟨trimList bef⟩, ⟨trimList aft⟩⟩

/-- Provider-tag step of `FromStr for ToolId`: the text left of the colon
goes to the provider parser (failure wrapped as `InvalidProvider`), the
text right of it becomes the rest. -/
def ToolId.fromStrWithTag (tag : String) (rest : List Char) :
    Except ToolIdParseError ToolId :=
  match ArtifactProvider.fromStr tag with
  | .error e => .error (.invalidProvider e)
  | .ok p => ToolId.fromStrRest p rest

/-- `impl FromStr for ToolId` (`src/lib/tool/id.rs`): reject the empty
string, split at the first colon if any, then parse the rest. -/
def ToolId.fromStr (s : String) : Except ToolIdParseError ToolId :=
  if s.data = [] then .error .empty
  else
    match splitOnce ':' s.data with
    | none => ToolId.fromStrRest ArtifactProvider.deflt s.data
    | some (l, r) => ToolId.fromStrWithTag ⟨l⟩ r

/-- `impl Display for ToolId`: cased author, slash, cased name. -/
def ToolId.render (t : ToolId) : String :=
  t.cased_author ++ "/" ++ t.cased_name

/-- The representation invariant the spec states for parsed identifiers:
each uncased field is the ASCII-lowercasing of its cased field. -/
def ToolId.Wf (t : ToolId) : Prop :=
  t.uncased_author = asciiLower t.cased_author ∧
    t.uncased_name = asciiLower t.cased_name

/-! ### Domain error taxonomy, from `src/lib/result.rs` -/

/-- External error from `tokio::task::JoinError`, opaque here: only its
displayable message matters to the wrapping. -/
structure JoinError where
  message : String
deriving DecidableEq

/-- External error from `toml_edit::TomlError`, opaque here. -/
structure TomlError where
  message : String
deriving DecidableEq

/-- External error from `std::io::Error`, opaque here. -/
structure IoError where
  message : String
deriving DecidableEq

/-- External error from `serde_json::Error`, opaque here. -/
structure JsonError where
  message : String
deriving DecidableEq

/-- External error from `zip::result::ZipError`, opaque here. -/
structure ZipError where
  message : String
deriving DecidableEq

/-- `RokitError` from `src/lib/result.rs`: the ten domain-error kinds. -/
inductive RokitError where
  | homeNotFound
  | fileNotFound (path : String)
  | extractUnknownFormat
  | extractFileMissing
  | invalidUtf8
  | taskJoinError (e : JoinError)
  | tomlParseError (e : TomlError)
  | io (e : IoError)
  | json (e : JsonError)
  | zip (e : ZipError)
deriving DecidableEq

/-- The `#[from]` conversion `tokio::task::JoinError → RokitError`. -/
def RokitError.fromJoin (e : JoinError) : RokitError := .taskJoinError e

/-- The `#[from]` conversion `toml_edit::TomlError → RokitError`. -/
def RokitError.fromToml (e : TomlError) : RokitError := .tomlParseError e

/-- The `#[from]` conversion `std::io::Error → RokitError`. -/
def RokitError.fromIo (e : IoError) : RokitError := .io e

/-- The `#[from]` conversion `serde_json::Error → RokitError`. -/
def RokitError.fromJson (e : JsonError) : RokitError := .json e

/-- The `#[from]` conversion `zip::result::ZipError → RokitError`. -/
def RokitError.fromZip (e : ZipError) : RokitError := .zip e

/-- The `#[error(...)]` display strings of `RokitError`, from
`src/lib/result.rs`; a wrapped external error renders through its own
message. -/
def RokitError.render : RokitError → String
  | .homeNotFound => "home directory not found"
  | .fileNotFound p => "file not found: " ++ p
  | .extractUnknownFormat => "failed to extract artifact: unknown format"
  | .extractFileMissing => "failed to extract artifact: missing binary file"
  | .invalidUtf8 => "unexpected invalid UTF-8"
  | .taskJoinError e => "task join error: " ++ e.message
  | .tomlParseError e => "TOML parse error: " ++ e.message
  | .io e => "I/O error: " ++ e.message
  | .json e => "JSON error: " ++ e.message
  | .zip e => "Zip file error: " ++ e.message

/-! ### Supporting lemmas -/

theorem splitOnce_eq_none (c : Char) (l : List Char) (h : c ∉ l) :
    splitOnce c l = none := by
  induction l with
  | nil => rfl
  | cons x xs ih =>
    simp only [List.mem_cons, not_or] at h
    simp [splitOnce, Ne.symm h.1, ih h.2]

theorem splitOnce_first (c : Char) (l₁ l₂ : List Char) (h : c ∉ l₁) :
    splitOnce c (l₁ ++ c :: l₂) = some (l₁, l₂) := by
  induction l₁ with
  | nil => simp [splitOnce]
  | cons x xs ih =>
    simp only [List.mem_cons, not_or] at h
    simp [splitOnce, Ne.symm h.1, ih h.2]

theorem then_eq_eq (o₁ o₂ : Ordering) :
    o₁.then o₂ = .eq ↔ o₁ = .eq ∧ o₂ = .eq := by
  cases o₁ <;> simp [Ordering.then]

theorem then_eq_lt (o₁ o₂ : Ordering) :
    o₁.then o₂ = .lt ↔ o₁ = .lt ∨ (o₁ = .eq ∧ o₂ = .lt) := by
  cases o₁ <;> simp [Ordering.then]

theorem then_swap (o₁ o₂ : Ordering) :
    (o₁.then o₂).swap = o₁.swap.then o₂.swap := by
  cases o₁ <;> cases o₂ <;> rfl

theorem charCmp_eq_iff (a b : Char) : charCmp a b = .eq ↔ a = b := by
  unfold charCmp
  split
  · constructor
    · intro h; exact absurd h (by simp)
    · intro h; subst h; omega
  · split
    · rename_i h
      simp only [true_iff]
      exact Char.eq_of_val_eq (UInt32.ext h)
    · constructor
      · intro h; exact absurd h (by simp)
      · intro h; subst h; omega

theorem charCmp_swap (a b : Char) : (charCmp a b).swap = charCmp b a := by
  rcases Nat.lt_trichotomy a.toNat b.toNat with h | h | h
  · have h2 : ¬ b.toNat < a.toNat := Nat.lt_asymm h
    have h3 : ¬ b.toNat = a.toNat := by omega
    have h4 : a.toNat < b.toNat := h
    simp [charCmp, h2, h3, h4, Ordering.swap]
  · have h1 : ¬ a.toNat < b.toNat := by omega
    have h2 : ¬ b.toNat < a.toNat := by omega
    simp [charCmp, h1, h2, h, Ordering.swap]
  · have h1 : ¬ a.toNat < b.toNat := Nat.lt_asymm h
    have h3 : ¬ a.toNat = b.toNat := by omega
    simp [charCmp, h1, h3, h, Ordering.swap]

theorem charCmp_lt_trans {a b c : Char} (h₁ : charCmp a b = .lt)
    (h₂ : charCmp b c = .lt) : charCmp a c = .lt := by
  unfold charCmp at h₁ h₂ ⊢
  split at h₁ <;> split at h₂ <;> simp_all
  omega

theorem listCmp_eq_iff (a b : List Char) : listCmp a b = .eq ↔ a = b := by
  induction a generalizing b with
  | nil => cases b <;> simp [listCmp]
  | cons x xs ih =>
    cases b with
    | nil => simp [listCmp]
    | cons y ys => simp [listCmp, then_eq_eq, charCmp_eq_iff, ih]

theorem listCmp_swap (a b : List Char) : (listCmp a b).swap = listCmp b a := by
  induction a generalizing b with
  | nil => cases b <;> rfl
  | cons x xs ih =>
    cases b with
    | nil => rfl
    | cons y ys => simp [listCmp, then_swap, charCmp_swap, ih]

theorem listCmp_lt_trans {a b c : List Char} (h₁ : listCmp a b = .lt)
    (h₂ : listCmp b c = .lt) : listCmp a c = .lt := by
  induction a generalizing b c with
  | nil =>
    cases b with
    | nil => exact absurd h₁ (by simp [listCmp])
    | cons y ys => cases c with
      | nil => exact absurd h₂ (by simp [listCmp])
      | cons z zs => simp [listCmp]
  | cons x xs ih =>
    cases b with
    | nil => exact absurd h₁ (by simp [listCmp])
    | cons y ys =>
      cases c with
      | nil => exact absurd h₂ (by simp [listCmp])
      | cons z zs =>
        rw [listCmp, then_eq_lt] at h₁ h₂ ⊢
        rcases h₁ with h₁ | ⟨h₁e, h₁l⟩
        · rcases h₂ with h₂ | ⟨h₂e, h₂l⟩
          · exact Or.inl (charCmp_lt_trans h₁ h₂)
          · rw [charCmp_eq_iff] at h₂e; subst h₂e; exact Or.inl h₁
        · rw [charCmp_eq_iff] at h₁e; subst h₁e
          rcases h₂ with h₂ | ⟨h₂e, h₂l⟩
          · exact Or.inl h₂
          · rw [charCmp_eq_iff] at h₂e; subst h₂e
            exact Or.inr ⟨by rw [charCmp_eq_iff], ih h₁l h₂l⟩

theorem strCmp_eq_iff (a b : String) : strCmp a b = .eq ↔ a = b := by
  rw [strCmp, listCmp_eq_iff]
  exact ⟨fun h => String.ext h, fun h => by rw [h]⟩

theorem strCmp_swap (a b : String) : (strCmp a b).swap = strCmp b a :=
  listCmp_swap a.data b.data

theorem strCmp_lt_trans {a b c : String} (h₁ : strCmp a b = .lt)
    (h₂ : strCmp b c = .lt) : strCmp a c = .lt :=
  listCmp_lt_trans h₁ h₂

theorem dropWhile_idem (p : α → Bool) (l : List α) :
    (l.dropWhile p).dropWhile p = l.dropWhile p := by
  cases h : l.dropWhile p with
  | nil => rfl
  | cons x xs =>
    have hx := List.head_dropWhile_not p l (by simp [h])
    simp only [h, List.head_cons] at hx
    simp [List.dropWhile_cons, hx]

theorem dropWhile_eq_self_of_append (p : α → Bool) (l₁ l₂ : List α)
    (h : (l₁ ++ l₂).dropWhile p = l₁ ++ l₂) : l₁.dropWhile p = l₁ := by
  cases l₁ with
  | nil => rfl
  | cons x xs =>
    rw [List.cons_append] at h
    cases hp : p x with
    | true =>
      exfalso
      rw [List.dropWhile_cons_of_pos hp] at h
      have hlen := congrArg List.length h
      have hle : (List.dropWhile p (xs ++ l₂)).length ≤ (xs ++ l₂).length :=
        List.Sublist.length_le (List.dropWhile_sublist _)
      simp at hlen hle
      omega
    | false =>
      exact List.dropWhile_cons_of_neg (by simp [hp])

theorem trimList_sublist (l : List Char) : List.Sublist (trimList l) l := by
  have h₁ : List.Sublist ((l.dropWhile isRustWhitespace).reverse.dropWhile
      isRustWhitespace) (l.dropWhile isRustWhitespace).reverse :=
    List.dropWhile_sublist _
  have h₂ := h₁.reverse
  rw [List.reverse_reverse] at h₂
  exact h₂.trans (List.dropWhile_sublist _)

theorem trimList_idem (l : List Char) : trimList (trimList l) = trimList l := by
  unfold trimList
  have hd : (l.dropWhile isRustWhitespace).dropWhile isRustWhitespace =
      l.dropWhile isRustWhitespace := dropWhile_idem _ _
  have he : ((l.dropWhile isRustWhitespace).reverse.dropWhile
      isRustWhitespace).dropWhile isRustWhitespace =
      (l.dropWhile isRustWhitespace).reverse.dropWhile isRustWhitespace :=
    dropWhile_idem _ _
  have hsplit := List.takeWhile_append_dropWhile isRustWhitespace
    (l.dropWhile isRustWhitespace).reverse
  have hdecomp : l.dropWhile isRustWhitespace =
      ((l.dropWhile isRustWhitespace).reverse.dropWhile
        isRustWhitespace).reverse ++
      ((l.dropWhile isRustWhitespace).reverse.takeWhile
        isRustWhitespace).reverse := by
    have := congrArg List.reverse hsplit
    rw [List.reverse_append, List.reverse_reverse] at this
    exact this.symm
  have hpre : (((l.dropWhile isRustWhitespace).reverse.dropWhile
      isRustWhitespace).reverse).dropWhile isRustWhitespace =
      ((l.dropWhile isRustWhitespace).reverse.dropWhile
        isRustWhitespace).reverse := by
    apply dropWhile_eq_self_of_append isRustWhitespace
    rw [← hdecomp]
    exact hd
  rw [hpre, List.reverse_reverse, he]

theorem trimStr_idem (s : String) : trimStr (trimStr s) = trimStr s :=
  congrArg String.mk (trimList_idem s.data)

theorem is_invalid_identifier_false (s : String) (h₁ : s.data ≠ [])
    (h₂ : '/' ∉ s.data) : is_invalid_identifier s = false := by
  unfold is_invalid_identifier
  simp [h₁, h₂]

/-- Inversion for the post-provider step of the parser: a successful result
comes from a slash split, with trimmed cased fields and their lowered
projections. -/
theorem fromStrRest_ok {p : ArtifactProvider} {rest : List Char} {t : ToolId}
    (h : ToolId.fromStrRest p rest = .ok t) :
    ∃ bef aft, splitOnce '/' rest = some (bef, aft) ∧
      t = ⟨p, asciiLower ⟨trimList bef⟩, asciiLower ⟨trimList aft⟩,
        ⟨trimList bef⟩, ⟨trimList aft⟩⟩ := by
  unfold ToolId.fromStrRest at h
  split at h
  · exact absurd h (by simp)
  · rename_i bef aft heq
    split at h
    · exact absurd h (by simp)
    · split at h
      · exact absurd h (by simp)
      · injection h with h'
        exact ⟨bef, aft, heq, h'.symm⟩

/-- Inversion for the full parser: a successful result passes through
`fromStrRest` for some provider and rest. -/
theorem fromStr_ok {s : String} {t : ToolId} (h : ToolId.fromStr s = .ok t) :
    ∃ p rest, ToolId.fromStrRest p rest = .ok t := by
  unfold ToolId.fromStr at h
  split at h
  · exact absurd h (by simp)
  · split at h
    · exact ⟨_, _, h⟩
    · unfold ToolId.fromStrWithTag at h
      split at h
      · exact absurd h (by simp)
      · exact ⟨_, _, h⟩

/-- The parser hands the text left of the first colon — wherever that colon
sits, even after a slash — to the provider-tag step. -/
theorem fromStr_colon (l r : List Char) (h : ':' ∉ l) :
    ToolId.fromStr ⟨l ++ ':' :: r⟩ = ToolId.fromStrWithTag ⟨l⟩ r := by
  unfold ToolId.fromStr
  have hne : (String.mk (l ++ ':' :: r)).data ≠ [] := by simp
  rw [if_neg hne]
  have hs : splitOnce ':' (String.mk (l ++ ':' :: r)).data = some (l, r) :=
    splitOnce_first ':' l r h
  rw [hs]

/-- Without any colon in the input, the provider defaults and the whole
input is the rest. -/
theorem fromStr_no_colon (s : String) (h₀ : s ≠ "") (h : ':' ∉ s.data) :
    ToolId.fromStr s = ToolId.fromStrRest ArtifactProvider.deflt s.data := by
  unfold ToolId.fromStr
  have hne : s.data ≠ [] := fun hd => h₀ (String.ext hd)
  rw [if_neg hne, splitOnce_eq_none ':' s.data h]

/-- Core success lemma: parsing `a ++ "/" ++ b` for slash-free, colon-free
parts with nonempty trims yields the trimmed cased fields and their
ASCII-lowered projections, under the default provider. -/
theorem fromStr_append (a b : String)
    (ha : trimStr a ≠ "") (hb : trimStr b ≠ "")
    (ha₁ : '/' ∉ a.data) (hb₁ : '/' ∉ b.data)
    (ha₂ : ':' ∉ a.data) (hb₂ : ':' ∉ b.data) :
    ToolId.fromStr (a ++ "/" ++ b) =
      .ok ⟨ArtifactProvider.deflt, asciiLower (trimStr a),
        asciiLower (trimStr b), trimStr a, trimStr b⟩ := by
  have hdata : (a ++ "/" ++ b).data = a.data ++ '/' :: b.data := by
    simp [String.data_append]
  have hnc : ':' ∉ (a ++ "/" ++ b).data := by
    rw [hdata]; simp [ha₂, hb₂]
  have hne : (a ++ "/" ++ b) ≠ "" := by
    intro h
    rw [h] at hdata
    simp at hdata
  rw [fromStr_no_colon _ hne hnc, hdata]
  unfold ToolId.fromStrRest
  rw [splitOnce_first '/' a.data b.data ha₁]
  have hta : (trimList a.data) ≠ [] := by
    intro h
    exact ha (congrArg String.mk h)
  have htb : (trimList b.data) ≠ [] := by
    intro h
    exact hb (congrArg String.mk h)
  have hsa : '/' ∉ trimList a.data :=
    fun hm => ha₁ ((trimList_sublist a.data).subset hm)
  have hsb : '/' ∉ trimList b.data :=
    fun hm => hb₁ ((trimList_sublist b.data).subset hm)
  have hva : is_invalid_identifier ⟨trimList a.data⟩ = false :=
    is_invalid_identifier_false _ hta hsa
  have hvb : is_invalid_identifier ⟨trimList b.data⟩ = false :=
    is_invalid_identifier_false _ htb hsb
  simp [hva, hvb, trimStr]

/-! ### Claims -/

/-- C1: two tool identifiers are equal exactly when their ASCII-lowercased
author fields match and their ASCII-lowercased name fields match; the
provider field never participates in equality, so changing either
provider leaves the comparison unchanged. -/
theorem c1_eq_ignores_provider (t₁ t₂ : ToolId) (h₁ : t₁.Wf) (h₂ : t₂.Wf) :
    (t₁.beq t₂ = true ↔
      asciiLower t₁.author = asciiLower t₂.author ∧
        asciiLower t₁.name = asciiLower t₂.name) ∧
    ∀ p₁ p₂, ToolId.beq { t₁ with provider := p₁ } { t₂ with provider := p₂ } =
      t₁.beq t₂ := by
  constructor
  · rw [ToolId.beq, Bool.and_eq_true, beq_iff_eq, beq_iff_eq,
      h₁.1, h₁.2, h₂.1, h₂.2]
    rfl
  · intro p₁ p₂
    rfl

/-- Witness for C1 at identifiers differing in case and sharing a
provider. -/
theorem c1_witness :
    (ToolId.mk .gitHub "a" "b" "A" "B").Wf ∧
    (ToolId.mk .gitHub "a" "b" "a" "b").Wf ∧
    (((ToolId.mk .gitHub "a" "b" "A" "B").beq
        (ToolId.mk .gitHub "a" "b" "a" "b") = true ↔
      asciiLower (ToolId.mk .gitHub "a" "b" "A" "B").author =
          asciiLower (ToolId.mk .gitHub "a" "b" "a" "b").author ∧
        asciiLower (ToolId.mk .gitHub "a" "b" "A" "B").name =
          asciiLower (ToolId.mk .gitHub "a" "b" "a" "b").name) ∧
    ∀ p₁ p₂,
      ToolId.beq { ToolId.mk .gitHub "a" "b" "A" "B" with provider := p₁ }
          { ToolId.mk .gitHub "a" "b" "a" "b" with provider := p₂ } =
        (ToolId.mk .gitHub "a" "b" "A" "B").beq
          (ToolId.mk .gitHub "a" "b" "a" "b")) :=
  ⟨⟨by decide, by decide⟩, ⟨by decide, by decide⟩,
    c1_eq_ignores_provider _ _ ⟨by decide, by decide⟩ ⟨by decide, by decide⟩⟩

/-- C2 counterexample: `"x:y"` is a non-empty, slash-free string whose
trim is non-empty, yet `parse("x:y" ++ "/" ++ "b")` does not succeed — the
colon inside the author part is taken as a provider delimiter and parsing
fails with `InvalidProvider "x"`. -/
theorem c2_counterexample :
    ("x:y" ≠ "" ∧ '/' ∉ "x:y".data ∧ trimStr "x:y" ≠ "" ∧
      "b" ≠ "" ∧ '/' ∉ "b".data ∧ trimStr "b" ≠ "") ∧
    ToolId.fromStr ("x:y" ++ "/" ++ "b") = .error (.invalidProvider "x") :=
  ⟨⟨by decide, by decide, by decide, by decide, by decide, by decide⟩, rfl⟩

/-- C2 amended: for every pair of slash-free and **colon-free** strings
`a`, `b` whose trims are non-empty, `parse(a ++ "/" ++ b)` succeeds and
yields `author() = trim(a)` and `name() = trim(b)`; moreover
`parse("a/ b ")` yields an identifier equal to `parse("a/b")`. -/
theorem c2_amended (a b : String)
    (ha : trimStr a ≠ "") (hb : trimStr b ≠ "")
    (ha₁ : '/' ∉ a.data) (hb₁ : '/' ∉ b.data)
    (ha₂ : ':' ∉ a.data) (hb₂ : ':' ∉ b.data) :
    (∃ t, ToolId.fromStr (a ++ "/" ++ b) = .ok t ∧
      t.author = trimStr a ∧ t.name = trimStr b) ∧
    (∃ t₁ t₂, ToolId.fromStr "a/ b " = .ok t₁ ∧
      ToolId.fromStr "a/b" = .ok t₂ ∧ t₁.beq t₂ = true) :=
  ⟨⟨_, fromStr_append a b ha hb ha₁ hb₁ ha₂ hb₂, rfl, rfl⟩,
    ⟨_, _, rfl, rfl, by decide⟩⟩

/-- Witness for C2 amended at `a = " A"`, `b = "b "`. -/
theorem c2_witness :
    (trimStr " A" ≠ "" ∧ trimStr "b " ≠ "" ∧
      '/' ∉ " A".data ∧ '/' ∉ "b ".data ∧
      ':' ∉ " A".data ∧ ':' ∉ "b ".data) ∧
    ((∃ t, ToolId.fromStr (" A" ++ "/" ++ "b ") = .ok t ∧
      t.author = trimStr " A" ∧ t.name = trimStr "b ") ∧
    (∃ t₁ t₂, ToolId.fromStr "a/ b " = .ok t₁ ∧
      ToolId.fromStr "a/b" = .ok t₂ ∧ t₁.beq t₂ = true)) :=
  ⟨⟨by decide, by decide, by decide, by decide, by decide, by decide⟩,
    c2_amended " A" "b " (by decide) (by decide) (by decide) (by decide)
      (by decide) (by decide)⟩

/-- C3: the rejection cases — empty input, empty name, empty author, bare
slash, a slash inside the name part, an empty provider tag and an unknown
provider tag — each fail with the stated error. -/
theorem c3_rejections :
    ToolId.fromStr "" = .error .empty ∧
    ToolId.fromStr "a/" = .error (.invalidName "") ∧
    ToolId.fromStr "/b" = .error (.invalidAuthor "") ∧
    ToolId.fromStr "/" = .error (.invalidAuthor "") ∧
    ToolId.fromStr "a/b/c" = .error (.invalidName "b/c") ∧
    ToolId.fromStr ":a/b" = .error (.invalidProvider "") ∧
    ToolId.fromStr "unknown:a/b" = .error (.invalidProvider "unknown") :=
  ⟨rfl, rfl, rfl, rfl, rfl, rfl, rfl⟩

/-- C4 counterexample: in `"a/b:c"` the first colon occurs after the first
slash, yet the parser still treats it as a provider delimiter and fails
with `InvalidProvider "a/b"`; had the whole input been treated as "the
rest" under the default provider — as the claim requires — parsing would
have succeeded with author `"a"` and name `"b:c"`. -/
theorem c4_counterexample :
    ToolId.fromStr "a/b:c" = .error (.invalidProvider "a/b") ∧
    ToolId.fromStrRest ArtifactProvider.deflt ("a/b:c".data) =
      .ok ⟨.gitHub, "a", "b:c", "a", "b:c"⟩ :=
  ⟨rfl, rfl⟩

/-- C4 amended: the parser recognizes a provider tag exactly when a colon
occurs anywhere in the input — the text left of the **first** colon, even
when that colon sits after the first slash, goes to the provider parser
and the text right of it becomes "the rest"; when no colon exists at all
the provider is the default value and the entire input is "the rest". -/
theorem c4_amended :
    (∀ (l r : List Char), ':' ∉ l →
      ToolId.fromStr ⟨l ++ ':' :: r⟩ = ToolId.fromStrWithTag ⟨l⟩ r) ∧
    (∀ s : String, s ≠ "" → ':' ∉ s.data →
      ToolId.fromStr s = ToolId.fromStrRest ArtifactProvider.deflt s.data) :=
  ⟨fromStr_colon, fromStr_no_colon⟩

/-- Witness for C4 amended: a colon after the first slash, and a
colon-free input. -/
theorem c4_witness :
    (':' ∉ "a/b".data ∧
      ToolId.fromStr ⟨"a/b".data ++ ':' :: "c".data⟩ =
        ToolId.fromStrWithTag ⟨"a/b".data⟩ "c".data) ∧
    ("a/b" ≠ "" ∧ ':' ∉ "a/b".data ∧
      ToolId.fromStr "a/b" =
        ToolId.fromStrRest ArtifactProvider.deflt "a/b".data) :=
  ⟨⟨by decide, c4_amended.1 _ _ (by decide)⟩,
    ⟨by decide, by decide, c4_amended.2 _ (by decide) (by decide)⟩⟩

/-- C5: rendering produces exactly `casedAuthor ++ "/" ++ casedName`, the
provider field never influences the rendered text, and round-tripping
`"a/b"` — or `"github:a/b"`, whose explicit provider is dropped — through
parse and render yields `"a/b"`. -/
theorem c5_render :
    (∀ t : ToolId, t.render = t.author ++ "/" ++ t.name) ∧
    (∀ (t : ToolId) (p : ArtifactProvider),
      ToolId.render { t with provider := p } = t.render) ∧
    (∃ t, ToolId.fromStr "a/b" = .ok t ∧ t.render = "a/b") ∧
    (∃ t, ToolId.fromStr "github:a/b" = .ok t ∧ t.render = "a/b") :=
  ⟨fun _ => rfl, fun _ _ => rfl, ⟨_, rfl, rfl⟩, ⟨_, rfl, rfl⟩⟩

/-- C6: hashing reads exactly the two uncased fields that equality
compares, so identifiers that compare equal feed identical input to any
hasher and hence hash identically. -/
theorem c6_hash_consistency (t₁ t₂ : ToolId) (h : t₁.beq t₂ = true) :
    t₁.hashInput = t₂.hashInput ∧
    t₁.hashInput = [t₁.uncased_author, t₁.uncased_name] := by
  rw [ToolId.beq, Bool.and_eq_true, beq_iff_eq, beq_iff_eq] at h
  exact ⟨by rw [ToolId.hashInput, ToolId.hashInput, h.1, h.2], rfl⟩

/-- Witness for C6 at equal identifiers differing in case. -/
theorem c6_witness :
    (ToolId.mk .gitHub "a" "b" "A" "B").beq
      (ToolId.mk .gitHub "a" "b" "a" "b") = true ∧
    ((ToolId.mk .gitHub "a" "b" "A" "B").hashInput =
      (ToolId.mk .gitHub "a" "b" "a" "b").hashInput ∧
    (ToolId.mk .gitHub "a" "b" "A" "B").hashInput =
      [(ToolId.mk .gitHub "a" "b" "A" "B").uncased_author,
        (ToolId.mk .gitHub "a" "b" "A" "B").uncased_name]) :=
  ⟨by decide, c6_hash_consistency _ _ (by decide)⟩

/-- C7: the comparison is the lexicographic comparison of the pair of
ASCII-lowercased author and name — it agrees with equality on `eq`, is
antisymmetric under `swap`, is transitive on `lt`, and for well-formed
identifiers coincides with comparing the lowered cased fields, so
identifiers differing only in case or provider compare as `eq`. -/
theorem c7_total_order :
    (∀ t₁ t₂ : ToolId, t₁.cmp t₂ = .eq ↔ t₁.beq t₂ = true) ∧
    (∀ t₁ t₂ : ToolId, (t₁.cmp t₂).swap = t₂.cmp t₁) ∧
    (∀ t₁ t₂ t₃ : ToolId,
      t₁.cmp t₂ = .lt → t₂.cmp t₃ = .lt → t₁.cmp t₃ = .lt) ∧
    (∀ t₁ t₂ : ToolId, t₁.Wf → t₂.Wf →
      t₁.cmp t₂ =
        (strCmp (asciiLower t₁.author) (asciiLower t₂.author)).then
          (strCmp (asciiLower t₁.name) (asciiLower t₂.name))) := by
  refine ⟨fun t₁ t₂ => ?_, fun t₁ t₂ => ?_, fun t₁ t₂ t₃ h₁ h₂ => ?_,
    fun t₁ t₂ h₁ h₂ => ?_⟩
  · rw [ToolId.cmp, then_eq_eq, strCmp_eq_iff, strCmp_eq_iff,
      ToolId.beq, Bool.and_eq_true, beq_iff_eq, beq_iff_eq]
  · rw [ToolId.cmp, ToolId.cmp, then_swap, strCmp_swap, strCmp_swap]
  · rw [ToolId.cmp, then_eq_lt] at h₁ h₂ ⊢
    rcases h₁ with h₁ | ⟨h₁e, h₁l⟩
    · rcases h₂ with h₂ | ⟨h₂e, h₂l⟩
      · exact Or.inl (strCmp_lt_trans h₁ h₂)
      · rw [strCmp_eq_iff] at h₂e
        rw [← h₂e]
        exact Or.inl h₁
    · rw [strCmp_eq_iff] at h₁e
      rcases h₂ with h₂ | ⟨h₂e, h₂l⟩
      · rw [h₁e]
        exact Or.inl h₂
      · rw [strCmp_eq_iff] at h₂e
        refine Or.inr ⟨?_, strCmp_lt_trans h₁l h₂l⟩
        rw [strCmp_eq_iff]
        exact h₁e.trans h₂e
  · rw [ToolId.cmp, h₁.1, h₁.2, h₂.1, h₂.2]
    rfl

/-- Witness for C7: transitivity at a concrete chain and agreement with
the lowered lexicographic comparison at a concrete well-formed pair. -/
theorem c7_witness :
    ((ToolId.mk .gitHub "a" "x" "a" "x").cmp
        (ToolId.mk .gitHub "b" "a" "b" "a") = .lt ∧
      (ToolId.mk .gitHub "b" "a" "b" "a").cmp
        (ToolId.mk .gitHub "c" "a" "c" "a") = .lt ∧
      (ToolId.mk .gitHub "a" "x" "a" "x").cmp
        (ToolId.mk .gitHub "c" "a" "c" "a") = .lt) ∧
    ((ToolId.mk .gitHub "a" "b" "A" "B").Wf ∧
      (ToolId.mk .gitHub "a" "c" "A" "C").Wf ∧
      (ToolId.mk .gitHub "a" "b" "A" "B").cmp
          (ToolId.mk .gitHub "a" "c" "A" "C") =
        (strCmp (asciiLower (ToolId.mk .gitHub "a" "b" "A" "B").author)
            (asciiLower (ToolId.mk .gitHub "a" "c" "A" "C").author)).then
          (strCmp (asciiLower (ToolId.mk .gitHub "a" "b" "A" "B").name)
            (asciiLower (ToolId.mk .gitHub "a" "c" "A" "C").name))) :=
  ⟨⟨by decide, by decide,
      c7_total_order.2.2.1 (ToolId.mk .gitHub "a" "x" "a" "x")
        (ToolId.mk .gitHub "b" "a" "b" "a")
        (ToolId.mk .gitHub "c" "a" "c" "a") (by decide) (by decide)⟩,
    ⟨⟨by decide, by decide⟩, ⟨by decide, by decide⟩,
      c7_total_order.2.2.2 (ToolId.mk .gitHub "a" "b" "A" "B")
        (ToolId.mk .gitHub "a" "c" "A" "C") ⟨by decide, by decide⟩
        ⟨by decide, by decide⟩⟩⟩

/-- C8: when the provider-tag parser rejects the text left of the colon
(an unrecognized or empty tag), parsing fails with `InvalidProvider`
carrying the raw tag text that appeared left of the colon. -/
theorem c8_invalid_provider (l r : List Char) (h₁ : ':' ∉ l)
    (h₂ : (String.mk l) ≠ "github") :
    ToolId.fromStr ⟨l ++ ':' :: r⟩ = .error (.invalidProvider ⟨l⟩) := by
  rw [fromStr_colon l r h₁]
  unfold ToolId.fromStrWithTag ArtifactProvider.fromStr
  rw [if_neg h₂]

/-- Witness for C8 at the unrecognized tag `"unknown"`. -/
theorem c8_witness :
    (':' ∉ "unknown".data ∧ (String.mk "unknown".data) ≠ "github") ∧
    ToolId.fromStr ⟨"unknown".data ++ ':' :: "a/b".data⟩ =
      .error (.invalidProvider ⟨"unknown".data⟩) :=
  ⟨⟨by decide, by decide⟩, c8_invalid_provider _ _ (by decide) (by decide)⟩

/-- C9: every identifier produced by parsing satisfies the invariant that
each uncased field is the ASCII-lowercasing of its cased field, and the
accessors return the original-case trimmed segments (trimming them again
changes nothing). -/
theorem c9_invariant (s : String) (t : ToolId)
    (h : ToolId.fromStr s = .ok t) :
    t.Wf ∧ t.author = t.cased_author ∧ t.name = t.cased_name ∧
      trimStr t.author = t.author ∧ trimStr t.name = t.name := by
  obtain ⟨p, rest, hr⟩ := fromStr_ok h
  obtain ⟨bef, aft, hsp, ht⟩ := fromStrRest_ok hr
  subst ht
  exact ⟨⟨rfl, rfl⟩, rfl, rfl,
    congrArg String.mk (trimList_idem bef),
    congrArg String.mk (trimList_idem aft)⟩

/-- Witness for C9 at `parse("Au/ Nm ")`. -/
theorem c9_witness :
    ToolId.fromStr "Au/ Nm " =
      .ok (ToolId.mk .gitHub "au" "nm" "Au" "Nm") ∧
    ((ToolId.mk .gitHub "au" "nm" "Au" "Nm").Wf ∧
      (ToolId.mk .gitHub "au" "nm" "Au" "Nm").author =
        (ToolId.mk .gitHub "au" "nm" "Au" "Nm").cased_author ∧
      (ToolId.mk .gitHub "au" "nm" "Au" "Nm").name =
        (ToolId.mk .gitHub "au" "nm" "Au" "Nm").cased_name ∧
      trimStr (ToolId.mk .gitHub "au" "nm" "Au" "Nm").author =
        (ToolId.mk .gitHub "au" "nm" "Au" "Nm").author ∧
      trimStr (ToolId.mk .gitHub "au" "nm" "Au" "Nm").name =
        (ToolId.mk .gitHub "au" "nm" "Au" "Nm").name) :=
  ⟨rfl, c9_invariant "Au/ Nm " _ rfl⟩

/-- C10: each of the five external failure kinds converts through its
dedicated conversion into the corresponding domain-error variant, and the
wrapping is lossless — the domain error's rendered message is the
variant's fixed label followed by the wrapped error's own message. -/
theorem c10_error_wrapping :
    (∀ e : TomlError, RokitError.fromToml e = .tomlParseError e ∧
      (RokitError.fromToml e).render = "TOML parse error: " ++ e.message) ∧
    (∀ e : IoError, RokitError.fromIo e = .io e ∧
      (RokitError.fromIo e).render = "I/O error: " ++ e.message) ∧
    (∀ e : JsonError, RokitError.fromJson e = .json e ∧
      (RokitError.fromJson e).render = "JSON error: " ++ e.message) ∧
    (∀ e : ZipError, RokitError.fromZip e = .zip e ∧
      (RokitError.fromZip e).render = "Zip file error: " ++ e.message) ∧
    (∀ e : JoinError, RokitError.fromJoin e = .taskJoinError e ∧
      (RokitError.fromJoin e).render = "task join error: " ++ e.message) :=
  ⟨fun _ => ⟨rfl, rfl⟩, fun _ => ⟨rfl, rfl⟩, fun _ => ⟨rfl, rfl⟩,
    fun _ => ⟨rfl, rfl⟩, fun _ => ⟨rfl, rfl⟩⟩

end Rokit
